import Mathlib

/-!
# Verification of the rolling-CAGR engine of the Fin repository

The repository computes rolling Compound Annual Growth Rate (CAGR) over
date-ordered price series in three near-duplicate routines:

* `fetch_nifty_data.py`  : `calculate_cagr`, `calculate_rolling_cagr`
* `mf_st.py`             : `calculate_cagr`, `calculate_rolling_cagr`
* `nse_index_st.py`      : `calculate_nse_cagr`, `calculate_nse_rolling_cagr`
* `index_cagr_analysis_excel.py` : `calculate_cagr`

Modelling conventions:

* Dates are rational day numbers.  Data observations sit on whole days
  (midnight timestamps); intermediate targets such as
  `anchor + timedelta(days=window_years * 365.25)` are fractional, exactly
  as Python datetimes shifted by fractional timedeltas.
* Prices are rationals.
* The Python `timedelta.days` (the floor of the span measured in days) is
  `pdays`.
* The Python float `**` on positive operands is `Real.rpow`.
* The float literal `365.25` is exactly representable in binary floating
  point; `0.98` and `0.9` are not, but their rounding error (< 1e-16) is
  far below every margin the loops compare against, so the model uses the
  exact rationals.
* The sources round the values they store into result dictionaries to two
  decimals (`round(x, 2)`) for display.  Control flow never branches on a
  rounded value; the only places a stored rounded value is read back are
  the aggregate statistics of the two index variants (a perturbation of at
  most 0.005 on each cagr).  The rounding is omitted from this model.
* The Python functions are duplicated across files under the same name
  `calculate_cagr`; here each copy carries a file-identifying suffix.
-/

/-- A price observation: (date in days, closing price).  In
`fetch_nifty_data.py` the price is the `Close` column; in `mf_st.py` it is
the `nav` column. -/
abbrev Obs : Type := ℚ × ℚ

/-- Python `timedelta.days`: the floor of a day span. -/
def pdays (q : ℚ) : ℤ := ⌊q⌋

/-- Model of `index_cagr_analysis_excel.py::calculate_cagr`: `None` unless all of
start price, end price and years are positive, else
`((end_price / start_price) ** (1 / years) - 1) * 100`. -/
noncomputable def calculate_cagr_excel (start_price end_price years : ℝ) : Option ℝ :=
  if start_price ≤ 0 ∨ end_price ≤ 0 ∨ years ≤ 0 then none
  else some (((end_price / start_price) ^ ((1 : ℝ) / years) - 1) * 100)

/-- Model of `nse_index_st.py::calculate_nse_cagr`: identical guard and formula to
the excel variant (the `try/except` around the arithmetic is dead for the
positive operands admitted by the guard). -/
noncomputable def calculate_nse_cagr (start_value end_value years : ℝ) : Option ℝ :=
  if start_value ≤ 0 ∨ end_value ≤ 0 ∨ years ≤ 0 then none
  else some (((end_value / start_value) ^ ((1 : ℝ) / years) - 1) * 100)

/-- Model of `mf_st.py::calculate_cagr`: same guard, but the failure value is the
number `0.0`, not an absent value. -/
noncomputable def mf_calculate_cagr (start_value end_value years : ℝ) : ℝ :=
  if start_value ≤ 0 ∨ end_value ≤ 0 ∨ years ≤ 0 then 0
  else ((end_value / start_value) ^ ((1 : ℝ) / years) - 1) * 100

/-- Model of `fetch_nifty_data.py::calculate_cagr`: derives `years` from the two
dates as `(end_date - start_date).days / 365.25`, and guards only
`years <= 0 or start_value <= 0` — the end value is not checked. -/
noncomputable def fetch_calculate_cagr (start_value end_value : ℝ)
    (start_date end_date : ℚ) : Option ℝ :=
  let years : ℝ := (pdays (end_date - start_date) : ℝ) / 365.25
  if years ≤ 0 ∨ start_value ≤ 0 then none
  else some (((end_value / start_value) ^ ((1 : ℝ) / years) - 1) * 100)

/-- Floor-policy date resolution as written in
`fetch_nifty_data.py::calculate_rolling_cagr`
(`prices = hist_data[hist_data.index <= target]` followed by taking row
`[-1]`): the last observation whose date is `≤ target`. -/
def floorResolve (data : List Obs) (target : ℚ) : Option Obs :=
  (data.filter (fun p => decide (p.1 ≤ target))).getLast?

/-- Ceiling-policy date resolution as written in the inner loop of
`mf_st.py::calculate_rolling_cagr`
(`for j in range(k, len(df))`, first row whose date reaches the target):
the first observation at index `≥ k` whose date is `≥ target`.
The source always calls it with `k = start_idx + 1`. -/
def ceilResolveFrom (data : List Obs) (k : ℕ) (target : ℚ) : Option Obs :=
  (data.drop k).find? (fun p => decide (target ≤ p.1))

/-- One emitted rolling window, with the fields the sources store
(dates, prices/navs and realized elapsed years); the cagr of a window is
derived from these fields by the per-variant cagr functions below, exactly
as the sources compute it.  The window-emission loops never branch on a
cagr value; the single cagr-dependent branch in the sources — the
no-valid-CAGR error check of the NSE routine — is modelled in
`nse_rolling` below. -/
structure Window where
  startDate : ℚ
  endDate : ℚ
  startNav : ℚ
  endNav : ℚ
  years : ℚ
deriving DecidableEq, Repr

/-- The rolling-window loop of `fetch_nifty_data.py::calculate_rolling_cagr`
(the `while True` starting at "Generate rolling windows").  `cur` is
`current_start`; `endDt` is `end_dt`; `windowDays = window_years * 365.25`.
Steps, in source order:
1. 98% pre-check on `remaining_days = (end_dt - current_start).days`;
2. clamp `window_end` to `end_dt`;
3. 98% check on `actual_days = (window_end - current_start).days`;
4. floor-resolve both endpoints (`continue` with a stride advance when a
   filter is empty);
5. 90% post-check on `actual_years`, `break` on failure;
6. emit the window only when `actual_years > 0 and start_price > 0`;
7. advance `current_start` by `stride_days` and `break` once it is within
   `0.9 * window_days` of `end_dt`.
The `fuel` argument bounds the iteration count (the Python loop terminates
because `current_start` strictly increases for positive strides). -/
def fetchLoop (data : List Obs) (endDt windowDays wy stride : ℚ) :
    ℕ → ℚ → List Window
  | 0, _ => []
  | fuel + 1, cur =>
    let remainingDays : ℤ := pdays (endDt - cur)
    if (remainingDays : ℚ) < windowDays * 0.98 then []
    else
      let windowEnd : ℚ :=
        if endDt < cur + windowDays then endDt else cur + windowDays
      let actualDays : ℤ := pdays (windowEnd - cur)
      if (actualDays : ℚ) < windowDays * 0.98 then []
      else
        match floorResolve data cur, floorResolve data windowEnd with
        | some ps, some pe =>
          let years : ℚ := (pdays (pe.1 - ps.1) : ℚ) / 365.25
          if years < wy * 0.9 then []
          else
            let emitted : List Window :=
              if 0 < years ∧ 0 < ps.2 then [⟨ps.1, pe.1, ps.2, pe.2, years⟩] else []
            let cur2 := cur + stride
            if endDt - windowDays * 0.9 ≤ cur2 then emitted
            else emitted ++ fetchLoop data endDt windowDays wy stride fuel cur2
        | _, _ => fetchLoop data endDt windowDays wy stride fuel (cur + stride)

/-- Anchor dates examined by `fetchLoop`, in order: the same recursion with
the same break/continue structure, recording `current_start` at the top of
each iteration instead of the emitted windows. -/
def fetchAnchors (data : List Obs) (endDt windowDays wy stride : ℚ) :
    ℕ → ℚ → List ℚ
  | 0, _ => []
  | fuel + 1, cur =>
    let remainingDays : ℤ := pdays (endDt - cur)
    if (remainingDays : ℚ) < windowDays * 0.98 then [cur]
    else
      let windowEnd : ℚ :=
        if endDt < cur + windowDays then endDt else cur + windowDays
      let actualDays : ℤ := pdays (windowEnd - cur)
      if (actualDays : ℚ) < windowDays * 0.98 then [cur]
      else
        match floorResolve data cur, floorResolve data windowEnd with
        | some ps, some pe =>
          let years : ℚ := (pdays (pe.1 - ps.1) : ℚ) / 365.25
          if years < wy * 0.9 then [cur]
          else
            let cur2 := cur + stride
            if endDt - windowDays * 0.9 ≤ cur2 then [cur]
            else cur :: fetchAnchors data endDt windowDays wy stride fuel cur2
        | _, _ => cur :: fetchAnchors data endDt windowDays wy stride fuel (cur + stride)

/-- Top of `fetch_nifty_data.py::calculate_rolling_cagr` for the default
(no explicit `start_date`) call: `start_dt = hist_data.index.min()` and
`end_dt = hist_data.index.max()` are the extreme data dates, and an empty
series is rejected before the loop.  The fuel bound covers the whole span:
`current_start` moves by at least one day per iteration for strides `≥ 1`,
and the loop breaks at the latest once `current_start` passes `end_dt`. -/
def fetch_rolling_windows (data : List Obs) (window_years : ℕ) (stride_days : ℚ) :
    List Window :=
  match data with
  | [] => []
  | h :: t =>
    let startDt : ℚ := t.foldl (fun m p => min m p.1) h.1
    let endDt : ℚ := t.foldl (fun m p => max m p.1) h.1
    fetchLoop data endDt ((window_years : ℚ) * 365.25) (window_years : ℚ) stride_days
      ((pdays (endDt - startDt)).natAbs + 2) startDt

/-- The rolling-window loop of `mf_st.py::calculate_rolling_cagr`:
`for i in range(0, len(df), stride_days)` with the hard-coded
`stride_days = 21` used as a ROW stride; for each start row the end row is
the first later row whose date reaches `start_date + window_years * 365.25`
days (`break` out of the whole loop when none exists), and the window is
recorded only when `start_nav > 0 and end_nav > 0 and actual_years > 0`. -/
def mfLoop (df : List Obs) (windowDays : ℚ) : ℕ → ℕ → List Window
  | 0, _ => []
  | fuel + 1, i =>
    match df.get? i with
    | none => []
    | some s =>
      match ceilResolveFrom df (i + 1) (s.1 + windowDays) with
      | none => []
      | some e =>
        let years : ℚ := (pdays (e.1 - s.1) : ℚ) / 365.25
        (if 0 < s.2 ∧ 0 < e.2 ∧ 0 < years then [⟨s.1, e.1, s.2, e.2, years⟩] else [])
          ++ mfLoop df windowDays fuel (i + 21)

/-- Model of `mf_st.py::calculate_rolling_cagr`: the input list (the API delivers it
newest-first) is sorted ascending by date (`df.sort_values` by date, a
stable sort, modelled by the stable `insertionSort`), then the row-strided
loop runs from row 0.  Fuel `length + 1` suffices: the row index grows by
21 each iteration and the loop stops at `len(df)`. -/
def mf_rolling_windows (data : List Obs) (window_years : ℕ) : List Window :=
  let df := data.insertionSort (fun a b => a.1 ≤ b.1)
  mfLoop df ((window_years : ℚ) * 365.25) (df.length + 1) 0

/-- The rolling-window loop of `nse_index_st.py::calculate_nse_rolling_cagr`:
`while start_idx < len(df)`; the end row is the first row in the WHOLE
frame whose date reaches `start_date + window_days` (`window_days` is the
integer `int(window_years * 365.25)`); when one exists a window is
appended unconditionally (its cagr may be absent) and `start_idx` advances
by `stride_days` ROWS; when none exists the loop breaks. -/
def nseLoop (df : List Obs) (windowDays : ℤ) (stride : ℕ) : ℕ → ℕ → List Window
  | 0, _ => []
  | fuel + 1, i =>
    match df.get? i with
    | none => []
    | some s =>
      match df.find? (fun p => decide (s.1 + (windowDays : ℚ) ≤ p.1)) with
      | none => []
      | some e =>
        let years : ℚ := (pdays (e.1 - s.1) : ℚ) / 365.25
        ⟨s.1, e.1, s.2, e.2, years⟩ :: nseLoop df windowDays stride fuel (i + stride)

/-- The cagr `fetch_nifty_data.py` computes for an emitted window: it calls
its date-based `calculate_cagr` on the resolved prices and dates. -/
noncomputable def fetchWindowCagr (w : Window) : Option ℝ :=
  fetch_calculate_cagr (w.startNav : ℝ) (w.endNav : ℝ) w.startDate w.endDate

/-- The cagr `mf_st.py` computes for a recorded window: inline
`((end_nav / start_nav) ** (1 / actual_years) - 1) * 100` (the guard of
the recording step has already ensured positive operands). -/
noncomputable def mfWindowCagr (w : Window) : ℝ :=
  (((w.endNav : ℝ) / (w.startNav : ℝ)) ^ ((1 : ℝ) / (w.years : ℝ)) - 1) * 100

/-- The cagr `nse_index_st.py` attaches to an emitted window:
`calculate_nse_cagr(start_value, end_value, actual_years)`; absent when a
price or the elapsed time is nonpositive. -/
noncomputable def nseWindowCagr (w : Window) : Option ℝ :=
  calculate_nse_cagr (w.startNav : ℝ) (w.endNav : ℝ) (w.years : ℝ)

/-- The `valid_cagrs` list of `fetch_nifty_data.py`: the present cagr values of the
emitted windows, in order. -/
noncomputable def fetchValidCagrs (data : List Obs) (wy : ℕ) (stride : ℚ) : List ℝ :=
  (fetch_rolling_windows data wy stride).filterMap fetchWindowCagr

/-- The `cagr_values` list of `mf_st.py`: every recorded window contributes (the
recording guard makes the inline formula total there). -/
noncomputable def mfCagrValues (data : List Obs) (wy : ℕ) : List ℝ :=
  (mf_rolling_windows data wy).map mfWindowCagr

/-- The `valid_cagrs` list of `nse_index_st.py` over an emitted window list. -/
noncomputable def nseValidCagrs (ws : List Window) : List ℝ :=
  ws.filterMap nseWindowCagr

/-- Model of `nse_index_st.py::calculate_nse_rolling_cagr` down to its window
list: `window_days = int(window_years * 365.25)`; the routine has three
error returns (`none`): when the frame has fewer than `window_days // 30`
rows ("Insufficient data"), when the loop emits no window ("Not enough
data for rolling CAGR calculation"), and when every emitted window lacks a
cagr — `valid_cagrs` empty — ("No valid CAGR calculations possible").
Otherwise it returns the emitted windows (`some`), whose present cagrs
feed the statistics. -/
noncomputable def nse_rolling (df : List Obs) (window_years : ℕ) (stride_days : ℕ) :
    Option (List Window) :=
  let windowDays : ℤ := ⌊(window_years : ℚ) * 365.25⌋
  if df.length < (windowDays / 30).toNat then none
  else
    let ws := nseLoop df windowDays stride_days (df.length + 1) 0
    if ws = [] then none
    else if nseValidCagrs ws = [] then none
    else some ws

/-- Arithmetic mean as all three sources write it: `sum(xs) / len(xs)`. -/
noncomputable def listMean (l : List ℝ) : ℝ := l.sum / l.length

/-- The `std_cagr` of `fetch_nifty_data.py`:
`(sum((x - avg) ** 2 for x in xs) / len(xs)) ** 0.5`. -/
noncomputable def fetch_std (l : List ℝ) : ℝ :=
  ((l.map (fun x => (x - listMean l) ^ 2)).sum / l.length) ^ (0.5 : ℝ)

/-- Model of `np.std` as used by `nse_index_st.py`: population standard deviation,
the square root of the mean squared deviation. -/
noncomputable def nse_std (l : List ℝ) : ℝ :=
  Real.sqrt ((l.map (fun x => (x - listMean l) ^ 2)).sum / l.length)

/-- Model of `pd.Series(xs).std()` as used by `mf_st.py`: the pandas default is the
SAMPLE standard deviation (`ddof = 1`), dividing by `len - 1`. -/
noncomputable def pandas_std (l : List ℝ) : ℝ :=
  Real.sqrt ((l.map (fun x => (x - listMean l) ^ 2)).sum / ((l.length : ℝ) - 1))

/-- Modelled from the spec: "population standard deviation (divide by N,
not N-1)", the "sum of squared deviations from the mean divided by N, then
square root" of the claim; written independently of the source functions
for the refinement comparison. -/
noncomputable def popStdSpec (l : List ℝ) : ℝ :=
  Real.sqrt ((l.map (fun x => (x - l.sum / l.length) ^ 2)).sum / l.length)

/-! ### Test-fixture price series used in concrete runs -/

/-- Two observations 365 days apart with rising price. -/
def sIncr2 : List Obs := [(0, 100), (365, 200)]

/-- Two observations 362 days apart: the span is 362 days, slightly less
than `1 * 365.25`, yet at least 98% of it. -/
def sShort : List Obs := [(0, 100), (362, 110)]

/-- Two observations with a zero price at the start date. -/
def sZeroStart : List Obs := [(0, 0), (365, 100)]

/-- Thirteen observations, the last exactly 365 days after the first. -/
def s13 : List Obs :=
  [(0, 100), (30, 100), (60, 100), (90, 100), (120, 100), (150, 100), (180, 100),
   (210, 100), (240, 100), (270, 100), (300, 100), (330, 100), (365, 100)]

/-- Series `s13` with the first price zeroed out. -/
def s13z : List Obs :=
  [(0, 0), (30, 100), (60, 100), (90, 100), (120, 100), (150, 100), (180, 100),
   (210, 100), (240, 100), (270, 100), (300, 100), (330, 100), (365, 100)]

/-- Series `s13z` extended by one observation on day 395: under a 1-year
window at a 1-row stride, the NSE loop emits two windows — one anchored at
the zero price (absent cagr) and one with positive prices (present
cagr 0). -/
def s14m : List Obs :=
  [(0, 0), (30, 100), (60, 100), (90, 100), (120, 100), (150, 100), (180, 100),
   (210, 100), (240, 100), (270, 100), (300, 100), (330, 100), (365, 100),
   (395, 100)]

/-- Fifteen observations spaced 40 days apart. -/
def s15 : List Obs :=
  [(0, 100), (40, 100), (80, 100), (120, 100), (160, 100), (200, 100), (240, 100),
   (280, 100), (320, 100), (360, 100), (400, 100), (440, 100), (480, 100),
   (520, 100), (560, 100)]

/-- Twenty-four observations: 21 daily constant navs, a drop to 50 on day
21, and two late navs of 100 on days 731 and 752; under a 2-year window
and the hard-coded 21-row stride this produces exactly two windows with
cagrs 0 and `(2 ^ (1461/2924) - 1) * 100`. -/
def s24 : List Obs :=
  [(0, 100), (1, 100), (2, 100), (3, 100), (4, 100), (5, 100), (6, 100), (7, 100),
   (8, 100), (9, 100), (10, 100), (11, 100), (12, 100), (13, 100), (14, 100),
   (15, 100), (16, 100), (17, 100), (18, 100), (19, 100), (20, 100), (21, 50),
   (731, 100), (752, 100)]

/-- Two observations 100 days apart. -/
def sTiny : List Obs := [(0, 100), (100, 110)]

/-- A three-point series for exercising the date resolvers. -/
def sResolve : List Obs := [(0, 10), (5, 20), (9, 30)]

/-! ### Date-resolution lemmas -/

theorem floorResolve_eq_some {data : List Obs} {t : ℚ} {o : Obs}
    (h : floorResolve data t = some o) : o ∈ data ∧ o.1 ≤ t := by
  obtain ⟨ys, hys⟩ := List.getLast?_eq_some_iff.mp h
  have ho : o ∈ data.filter (fun p => decide (p.1 ≤ t)) := by
    rw [hys]; exact List.mem_append_right ys (List.mem_singleton_self o)
  have := List.mem_filter.mp ho
  exact ⟨this.1, by simpa using this.2⟩

theorem floorResolve_max {data : List Obs} {t : ℚ}
    (hp : data.Pairwise (fun a b : Obs => a.1 < b.1)) {o : Obs}
    (h : floorResolve data t = some o) :
    ∀ q ∈ data, q.1 ≤ t → q.1 ≤ o.1 := by
  obtain ⟨ys, hys⟩ := List.getLast?_eq_some_iff.mp h
  intro q hq hqt
  have hqf : q ∈ data.filter (fun p => decide (p.1 ≤ t)) :=
    List.mem_filter.mpr ⟨hq, by simpa using hqt⟩
  have hpf : (data.filter (fun p => decide (p.1 ≤ t))).Pairwise
      (fun a b : Obs => a.1 < b.1) := hp.filter _
  rw [hys] at hqf hpf
  rcases List.mem_append.mp hqf with hy | hsing
  · exact le_of_lt ((List.pairwise_append.mp hpf).2.2 q hy o (List.mem_singleton_self o))
  · rw [List.mem_singleton.mp hsing]

theorem floorResolve_isSome {data : List Obs} {t : ℚ}
    (h : ∃ q ∈ data, q.1 ≤ t) : ∃ o, floorResolve data t = some o := by
  obtain ⟨q, hq, hqt⟩ := h
  have hne : data.filter (fun p => decide (p.1 ≤ t)) ≠ [] := by
    intro hnil
    have : q ∈ data.filter (fun p => decide (p.1 ≤ t)) :=
      List.mem_filter.mpr ⟨hq, by simpa using hqt⟩
    rw [hnil] at this
    exact List.not_mem_nil q this
  exact Option.isSome_iff_exists.mp (List.getLast?_isSome.mpr hne)

theorem ceilResolveFrom_eq_some {data : List Obs} {k : ℕ} {t : ℚ} {o : Obs}
    (h : ceilResolveFrom data k t = some o) : o ∈ data ∧ t ≤ o.1 := by
  have hmem := List.mem_of_find?_eq_some h
  have hcond := List.find?_some h
  exact ⟨(List.drop_subset k data) hmem, by simpa using hcond⟩

theorem ceilResolveFrom_zero_min {data : List Obs} {t : ℚ}
    (hp : data.Pairwise (fun a b : Obs => a.1 < b.1)) {o : Obs}
    (h : ceilResolveFrom data 0 t = some o) :
    ∀ q ∈ data, t ≤ q.1 → o.1 ≤ q.1 := by
  rw [ceilResolveFrom, List.drop_zero] at h
  obtain ⟨hpo, as, bs, heq, hfail⟩ := List.find?_eq_some.mp h
  intro q hq hqt
  rw [heq] at hq hp
  rcases List.mem_append.mp hq with ha | hob
  · exact absurd hqt (by simpa using hfail q ha)
  · rcases List.mem_cons.mp hob with rfl | hb
    · exact le_rfl
    · exact le_of_lt ((List.pairwise_cons.mp (List.pairwise_append.mp hp).2.1).1 q hb)

theorem ceilResolveFrom_zero_isSome {data : List Obs} {t : ℚ}
    (h : ∃ q ∈ data, t ≤ q.1) : ∃ o, ceilResolveFrom data 0 t = some o := by
  obtain ⟨q, hq, hqt⟩ := h
  rw [ceilResolveFrom, List.drop_zero]
  exact Option.isSome_iff_exists.mp
    (List.find?_isSome.mpr ⟨q, hq, by simpa using hqt⟩)

theorem ceilResolveFrom_eq_zero {t : ℚ} (data : List Obs) (k : ℕ)
    (h : ∀ p ∈ data.take k, p.1 < t) :
    ceilResolveFrom data k t = ceilResolveFrom data 0 t := by
  induction k generalizing data with
  | zero => rfl
  | succ n ih =>
    cases data with
    | nil => rfl
    | cons a l =>
      have ha : a.1 < t := h a (by simp)
      have hrec := ih l (fun p hp => h p (by simp [hp]))
      rw [ceilResolveFrom, ceilResolveFrom, List.drop_zero] at *
      rw [List.drop_succ_cons, hrec, List.find?_cons_of_neg]
      simpa using not_le.mpr ha

/-! ### Rolling-loop membership invariants -/


theorem fetchEmit_mem {data : List Obs} {cur t wy : ℚ} {ps pe : Obs} {w : Window}
    (heq1 : floorResolve data cur = some ps) (heq2 : floorResolve data t = some pe)
    (hyears : ¬ (pdays (pe.1 - ps.1) : ℚ) / 365.25 < wy * 0.9)
    (hw : w ∈ (if 0 < (pdays (pe.1 - ps.1) : ℚ) / 365.25 ∧ 0 < ps.2 then
        [(⟨ps.1, pe.1, ps.2, pe.2, (pdays (pe.1 - ps.1) : ℚ) / 365.25⟩ : Window)]
      else [])) :
    ∃ qs ∈ data, ∃ qe ∈ data,
      w = ⟨qs.1, qe.1, qs.2, qe.2, (pdays (qe.1 - qs.1) : ℚ) / 365.25⟩ ∧
      wy * 0.9 ≤ w.years ∧ 0 < w.years ∧ 0 < w.startNav := by
  split at hw
  case isTrue hgate =>
    rw [List.mem_singleton.mp hw]
    exact ⟨ps, (floorResolve_eq_some heq1).1, pe, (floorResolve_eq_some heq2).1,
      rfl, not_lt.mp hyears, hgate.1, hgate.2⟩
  case isFalse => simp at hw

theorem fetchLoop_mem {data : List Obs} {endDt windowDays wy stride : ℚ}
    {fuel : ℕ} {cur : ℚ} {w : Window}
    (hw : w ∈ fetchLoop data endDt windowDays wy stride fuel cur) :
    ∃ ps ∈ data, ∃ pe ∈ data,
      w = ⟨ps.1, pe.1, ps.2, pe.2, (pdays (pe.1 - ps.1) : ℚ) / 365.25⟩ ∧
      wy * 0.9 ≤ w.years ∧ 0 < w.years ∧ 0 < w.startNav := by
  induction fuel generalizing cur with
  | zero => simp [fetchLoop] at hw
  | succ n ih =>
    simp only [fetchLoop] at hw
    split at hw
    · simp at hw
    · split at hw
      · -- window end clamped to endDt; the duplicate 98% check was
        -- discharged by the rewrite of the first split
        split at hw
        case _ ps pe heq1 heq2 =>
          split at hw
          · simp at hw
          case _ hyears =>
            split at hw
            · exact fetchEmit_mem heq1 heq2 hyears hw
            · rcases List.mem_append.mp hw with h1 | h2
              · exact fetchEmit_mem heq1 heq2 hyears h1
              · exact ih h2
        case _ => exact ih hw
      · -- window end not clamped
        split at hw
        · simp at hw
        · split at hw
          case _ ps pe heq1 heq2 =>
            split at hw
            · simp at hw
            case _ hyears =>
              split at hw
              · exact fetchEmit_mem heq1 heq2 hyears hw
              · rcases List.mem_append.mp hw with h1 | h2
                · exact fetchEmit_mem heq1 heq2 hyears h1
                · exact ih h2
          case _ => exact ih hw

theorem mfLoop_mem {df : List Obs} {windowDays : ℚ} {fuel i : ℕ} {w : Window}
    (hw : w ∈ mfLoop df windowDays fuel i) :
    ∃ s ∈ df, ∃ e ∈ df,
      w = ⟨s.1, e.1, s.2, e.2, (pdays (e.1 - s.1) : ℚ) / 365.25⟩ ∧
      s.1 + windowDays ≤ e.1 ∧ 0 < w.startNav ∧ 0 < w.endNav ∧ 0 < w.years := by
  induction fuel generalizing i with
  | zero => simp [mfLoop] at hw
  | succ n ih =>
    simp only [mfLoop] at hw
    split at hw
    · simp at hw
    case _ s heqs =>
      split at hw
      · simp at hw
      case _ e heqe =>
        rcases List.mem_append.mp hw with h1 | h2
        · split at h1
          case isTrue hgate =>
            rw [List.mem_singleton.mp h1]
            exact ⟨s, List.get?_mem heqs, e, (ceilResolveFrom_eq_some heqe).1,
              rfl, (ceilResolveFrom_eq_some heqe).2, hgate.1, hgate.2.1, hgate.2.2⟩
          case isFalse => simp at h1
        · exact ih h2

theorem nseLoop_mem {df : List Obs} {windowDays : ℤ} {stride : ℕ}
    {fuel i : ℕ} {w : Window}
    (hw : w ∈ nseLoop df windowDays stride fuel i) :
    ∃ s ∈ df, ∃ e ∈ df,
      w = ⟨s.1, e.1, s.2, e.2, (pdays (e.1 - s.1) : ℚ) / 365.25⟩ ∧
      s.1 + (windowDays : ℚ) ≤ e.1 := by
  induction fuel generalizing i with
  | zero => simp [nseLoop] at hw
  | succ n ih =>
    simp only [nseLoop] at hw
    split at hw
    · simp at hw
    case _ s heqs =>
      split at hw
      · simp at hw
      case _ e heqe =>
        rcases List.mem_cons.mp hw with h1 | h2
        · exact ⟨s, List.get?_mem heqs, e, List.mem_of_find?_eq_some heqe,
            h1, by simpa using List.find?_some heqe⟩
        · exact ih h2

/-- A window with positive prices and positive elapsed years carries a
present cagr in the NSE routine. -/
theorem nseWindowCagr_isSome (w : Window) (hs : 0 < w.startNav)
    (he : 0 < w.endNav) (hy : 0 < w.years) : ∃ c, nseWindowCagr w = some c := by
  have hng : ¬((w.startNav : ℝ) ≤ 0 ∨ (w.endNav : ℝ) ≤ 0 ∨ (w.years : ℝ) ≤ 0) := by
    push_neg
    exact ⟨by exact_mod_cast hs, by exact_mod_cast he, by exact_mod_cast hy⟩
  exact ⟨_, by rw [nseWindowCagr, calculate_nse_cagr, if_neg hng]⟩

/-- A window with a nonpositive start price carries an absent cagr in the
NSE routine. -/
theorem nseWindowCagr_none (w : Window) (hs : w.startNav ≤ 0) :
    nseWindowCagr w = none := by
  have h : (w.startNav : ℝ) ≤ 0 := by exact_mod_cast hs
  rw [nseWindowCagr, calculate_nse_cagr, if_pos (Or.inl h)]

/-- An absent cagr is dropped from `valid_cagrs`. -/
theorem nseValidCagrs_cons_of_none {w : Window} {ws : List Window}
    (h : nseWindowCagr w = none) : nseValidCagrs (w :: ws) = nseValidCagrs ws := by
  simp [nseValidCagrs, h]

/-- A present cagr is kept in `valid_cagrs`. -/
theorem nseValidCagrs_cons_of_some {w : Window} {ws : List Window} {c : ℝ}
    (h : nseWindowCagr w = some c) :
    nseValidCagrs (w :: ws) = c :: nseValidCagrs ws := by
  simp [nseValidCagrs, h]

/-! ### Concrete runs of the three routines on the fixture series -/

set_option maxRecDepth 4000 in
theorem eval_fetch_incr :
    fetch_rolling_windows sIncr2 1 30 = [⟨0, 365, 100, 200, 1460/1461⟩] := by
  simp only [sIncr2, fetch_rolling_windows]
  norm_num [List.foldl, min_def, max_def, pdays]
  rw [fetchLoop]
  norm_num [floorResolve, pdays, List.filter_cons, List.filter_nil,
    List.getLast?_cons_cons, List.getLast?_singleton]
  rw [fetchLoop]
  norm_num [pdays]

set_option maxRecDepth 4000 in
theorem eval_fetch_short :
    fetch_rolling_windows sShort 1 30 = [⟨0, 362, 100, 110, 1448/1461⟩] := by
  simp only [sShort, fetch_rolling_windows]
  norm_num [List.foldl, min_def, max_def, pdays]
  rw [fetchLoop]
  norm_num [floorResolve, pdays, List.filter_cons, List.filter_nil,
    List.getLast?_cons_cons, List.getLast?_singleton]
  rw [fetchLoop]
  norm_num [pdays]

set_option maxRecDepth 4000 in
theorem eval_fetch_zero : fetch_rolling_windows sZeroStart 1 30 = [] := by
  simp only [sZeroStart, fetch_rolling_windows]
  norm_num [List.foldl, min_def, max_def, pdays]
  rw [fetchLoop]
  norm_num [floorResolve, pdays, List.filter_cons, List.filter_nil,
    List.getLast?_cons_cons, List.getLast?_singleton]
  rw [fetchLoop]
  norm_num [pdays]

set_option maxRecDepth 4000 in
theorem eval_nseLoop_s13 :
    nseLoop s13 365 21 (s13.length + 1) 0 = [⟨0, 365, 100, 100, 1460/1461⟩] := by
  simp only [s13]
  norm_num [List.length_cons]
  rw [nseLoop]
  norm_num [List.get?, List.find?, pdays]
  rw [nseLoop]
  norm_num [List.get?]

theorem eval_nse_s13 :
    nse_rolling s13 1 21 = some [⟨0, 365, 100, 100, 1460/1461⟩] := by
  have h : (⌊((1 : ℕ) : ℚ) * 365.25⌋ : ℤ) = 365 := Int.floor_eq_iff.mpr (by norm_num)
  obtain ⟨c, hc⟩ := nseWindowCagr_isSome ⟨0, 365, 100, 100, 1460/1461⟩
    (by norm_num) (by norm_num) (by norm_num)
  simp only [nse_rolling, h]
  rw [eval_nseLoop_s13]
  rw [if_neg (by norm_num [s13, List.length_cons])]
  rw [if_neg (by simp)]
  rw [if_neg (by rw [nseValidCagrs_cons_of_some hc]; simp)]

set_option maxRecDepth 4000 in
theorem eval_nseLoop_s13z :
    nseLoop s13z 365 21 (s13z.length + 1) 0 = [⟨0, 365, 0, 100, 1460/1461⟩] := by
  simp only [s13z]
  norm_num [List.length_cons]
  rw [nseLoop]
  norm_num [List.get?, List.find?, pdays]
  rw [nseLoop]
  norm_num [List.get?]

theorem eval_nse_s13z : nse_rolling s13z 1 21 = none := by
  have h : (⌊((1 : ℕ) : ℚ) * 365.25⌋ : ℤ) = 365 := Int.floor_eq_iff.mpr (by norm_num)
  have hn : nseWindowCagr ⟨0, 365, 0, 100, 1460/1461⟩ = none :=
    nseWindowCagr_none _ (by norm_num)
  simp only [nse_rolling, h]
  rw [eval_nseLoop_s13z]
  rw [if_neg (by norm_num [s13z, List.length_cons])]
  rw [if_neg (by simp)]
  rw [if_pos (by rw [nseValidCagrs_cons_of_none hn]; simp [nseValidCagrs])]

set_option maxRecDepth 4000 in
theorem eval_nseLoop_s14m :
    nseLoop s14m 365 1 (s14m.length + 1) 0 =
      [⟨0, 365, 0, 100, 1460/1461⟩, ⟨30, 395, 100, 100, 1460/1461⟩] := by
  simp only [s14m]
  norm_num [List.length_cons]
  rw [nseLoop]
  norm_num [List.get?, List.find?, pdays]
  rw [nseLoop]
  norm_num [List.get?, List.find?, pdays]
  rw [nseLoop]
  norm_num [List.get?, List.find?, pdays]

/-- The cagr of the second `s14m` window: present, with value 0 (the navs
are equal). -/
theorem nseWindowCagr_s14m_snd :
    nseWindowCagr ⟨30, 395, 100, 100, 1460/1461⟩ = some 0 := by
  simp only [nseWindowCagr, calculate_nse_cagr]
  rw [if_neg (by norm_num)]
  norm_num

theorem eval_nse_s14m :
    nse_rolling s14m 1 1 =
      some [⟨0, 365, 0, 100, 1460/1461⟩, ⟨30, 395, 100, 100, 1460/1461⟩] := by
  have h : (⌊((1 : ℕ) : ℚ) * 365.25⌋ : ℤ) = 365 := Int.floor_eq_iff.mpr (by norm_num)
  have hn : nseWindowCagr ⟨0, 365, 0, 100, 1460/1461⟩ = none :=
    nseWindowCagr_none _ (by norm_num)
  simp only [nse_rolling, h]
  rw [eval_nseLoop_s14m]
  rw [if_neg (by norm_num [s14m, List.length_cons])]
  rw [if_neg (by simp)]
  rw [if_neg (by
    rw [nseValidCagrs_cons_of_none hn, nseValidCagrs_cons_of_some nseWindowCagr_s14m_snd]
    simp)]

set_option maxRecDepth 4000 in
theorem eval_nseLoop_s15 :
    nseLoop s15 365 1 (s15.length + 1) 0 =
      [⟨0, 400, 100, 100, 1600/1461⟩, ⟨40, 440, 100, 100, 1600/1461⟩,
        ⟨80, 480, 100, 100, 1600/1461⟩, ⟨120, 520, 100, 100, 1600/1461⟩,
        ⟨160, 560, 100, 100, 1600/1461⟩] := by
  simp only [s15]
  norm_num [List.length_cons]
  rw [nseLoop]
  norm_num [List.get?, List.find?, pdays]
  rw [nseLoop]
  norm_num [List.get?, List.find?, pdays]
  rw [nseLoop]
  norm_num [List.get?, List.find?, pdays]
  rw [nseLoop]
  norm_num [List.get?, List.find?, pdays]
  rw [nseLoop]
  norm_num [List.get?, List.find?, pdays]
  rw [nseLoop]
  norm_num [List.get?, List.find?, pdays]

theorem eval_nse_s15 :
    nse_rolling s15 1 1 =
      some [⟨0, 400, 100, 100, 1600/1461⟩, ⟨40, 440, 100, 100, 1600/1461⟩,
        ⟨80, 480, 100, 100, 1600/1461⟩, ⟨120, 520, 100, 100, 1600/1461⟩,
        ⟨160, 560, 100, 100, 1600/1461⟩] := by
  have h : (⌊((1 : ℕ) : ℚ) * 365.25⌋ : ℤ) = 365 := Int.floor_eq_iff.mpr (by norm_num)
  obtain ⟨c, hc⟩ := nseWindowCagr_isSome ⟨0, 400, 100, 100, 1600/1461⟩
    (by norm_num) (by norm_num) (by norm_num)
  simp only [nse_rolling, h]
  rw [eval_nseLoop_s15]
  rw [if_neg (by norm_num [s15, List.length_cons])]
  rw [if_neg (by simp)]
  rw [if_neg (by rw [nseValidCagrs_cons_of_some hc]; simp)]

set_option maxRecDepth 8000 in
theorem eval_mf_s24 :
    mf_rolling_windows s24 2 =
      [⟨0, 731, 100, 100, 2924/1461⟩, ⟨21, 752, 50, 100, 2924/1461⟩] := by
  have hs : List.Sorted (fun a b : Obs => a.1 ≤ b.1) s24 := by
    rw [s24]; decide
  simp only [s24, mf_rolling_windows] at hs ⊢
  rw [List.Sorted.insertionSort_eq hs]
  norm_num [List.length_cons]
  rw [mfLoop]
  norm_num [List.get?, ceilResolveFrom, List.find?, List.drop, pdays]
  rw [mfLoop]
  norm_num [List.get?, ceilResolveFrom, List.find?, List.drop, pdays]
  rw [mfLoop]
  norm_num [List.get?]

/-! ### Claims -/

/-- C1: for every `start_price > 0`, `end_price > 0` and `years > 0`, the
CAGR operation (the `index_cagr_analysis_excel.py` and `nse_index_st.py`
calculators) returns `((end_price / start_price) ** (1/years) - 1) * 100`;
the concrete scenario `cagr(100, 200, 5) = 100 * (2^(1/5) - 1) ≈ 14.87` is
checked in the witness. -/
theorem C1_cagr_formula (s e y : ℝ) (hs : 0 < s) (he : 0 < e) (hy : 0 < y) :
    calculate_cagr_excel s e y = some (((e / s) ^ ((1:ℝ) / y) - 1) * 100) ∧
    calculate_nse_cagr s e y = some (((e / s) ^ ((1:ℝ) / y) - 1) * 100) := by
  have hng : ¬(s ≤ 0 ∨ e ≤ 0 ∨ y ≤ 0) := by push_neg; exact ⟨hs, he, hy⟩
  exact ⟨by rw [calculate_cagr_excel, if_neg hng], by rw [calculate_nse_cagr, if_neg hng]⟩

/-- Witness for C1 at `(100, 200, 5)`: the result is
`100 * (2^(1/5) - 1)`, which lies strictly between 14.8 and 14.9. -/
theorem C1_cagr_formula_witness :
    (0:ℝ) < 100 ∧ (0:ℝ) < 200 ∧ (0:ℝ) < 5 ∧
    calculate_cagr_excel 100 200 5 = some (((2:ℝ) ^ ((1:ℝ)/5) - 1) * 100) ∧
    (14.8:ℝ) < ((2:ℝ) ^ ((1:ℝ)/5) - 1) * 100 ∧ ((2:ℝ) ^ ((1:ℝ)/5) - 1) * 100 < 14.9 := by
  have h1 := (C1_cagr_formula 100 200 5 (by norm_num) (by norm_num) (by norm_num)).1
  rw [show ((200:ℝ)/100) = 2 by norm_num] at h1
  have hx5 : ((2:ℝ) ^ ((1:ℝ)/5)) ^ (5:ℕ) = 2 := by
    rw [← Real.rpow_natCast ((2:ℝ) ^ ((1:ℝ)/5)) 5, ← Real.rpow_mul (by norm_num)]
    norm_num
  have hx0 : (0:ℝ) ≤ (2:ℝ) ^ ((1:ℝ)/5) := Real.rpow_nonneg (by norm_num) _
  have hlb : (1.148:ℝ) < (2:ℝ) ^ ((1:ℝ)/5) := by
    by_contra hc
    push_neg at hc
    have h2 := pow_le_pow_left₀ hx0 hc 5
    rw [hx5] at h2
    norm_num at h2
  have hub : (2:ℝ) ^ ((1:ℝ)/5) < 1.149 := by
    by_contra hc
    push_neg at hc
    have h2 := pow_le_pow_left₀ (by norm_num : (0:ℝ) ≤ 1.149) hc 5
    rw [hx5] at h2
    norm_num at h2
  exact ⟨by norm_num, by norm_num, by norm_num, h1, by linarith, by linarith⟩

/-- C2 counterexample: the claim says every CAGR variant returns an
absent value whenever `start ≤ 0 ∨ end ≤ 0 ∨ years ≤ 0`, in particular at
`cagr(100, 0, 5)`.  But `fetch_nifty_data.py::calculate_cagr` never checks
the end value — at start 100, end 0 and a 1827-day span (about 5 years) it
returns the number `-100`, not an absent value — and
`mf_st.py::calculate_cagr` returns the number `0.0`. -/
theorem C2_counterexample :
    fetch_calculate_cagr 100 0 0 1827 = some (-100) ∧
    mf_calculate_cagr 100 0 5 = 0 := by
  constructor
  · have hp : pdays ((1827:ℚ) - 0) = 1827 := by norm_num [pdays]
    simp only [fetch_calculate_cagr, hp]
    rw [if_neg (by norm_num)]
    rw [show ((0:ℝ)/100) = 0 by norm_num]
    rw [Real.zero_rpow (by norm_num)]
    norm_num
  · rw [mf_calculate_cagr, if_pos (by norm_num)]

/-- C2 amended: on inputs with `start ≤ 0 ∨ end ≤ 0 ∨ years ≤ 0`, the
`nse_index_st.py` and `index_cagr_analysis_excel.py` calculators return an
absent value; the `mf_st.py` calculator instead returns the number `0.0`;
and the `fetch_nifty_data.py` calculator returns an absent value only when
`years ≤ 0` or `start_value ≤ 0` — a nonpositive end value is not
checked. -/
theorem C2_guard_amended (s e y : ℝ) (d0 d1 : ℚ) (h : s ≤ 0 ∨ e ≤ 0 ∨ y ≤ 0) :
    calculate_nse_cagr s e y = none ∧ calculate_cagr_excel s e y = none ∧
    mf_calculate_cagr s e y = 0 ∧
    (s ≤ 0 → fetch_calculate_cagr s e d0 d1 = none) := by
  refine ⟨by rw [calculate_nse_cagr, if_pos h], by rw [calculate_cagr_excel, if_pos h],
    by rw [mf_calculate_cagr, if_pos h], fun hs => ?_⟩
  simp only [fetch_calculate_cagr]
  rw [if_pos (Or.inr hs)]

/-- Witness for the amended C2 at `(100, 0, 5)`. -/
theorem C2_guard_amended_witness :
    ((100:ℝ) ≤ 0 ∨ (0:ℝ) ≤ 0 ∨ (5:ℝ) ≤ 0) ∧
    calculate_nse_cagr 100 0 5 = none ∧ calculate_cagr_excel 100 0 5 = none ∧
    mf_calculate_cagr 100 0 5 = 0 ∧
    ((100:ℝ) ≤ 0 → fetch_calculate_cagr 100 0 0 1827 = none) :=
  ⟨by norm_num, C2_guard_amended 100 0 5 0 1827 (by norm_num)⟩

/-- C8: for every date-sorted price series, the floor policy
(`fetch_nifty_data.py`, rows with `index <= target` then `[-1]`) returns
the latest observation with date `≤ target`, and the ceiling policy
(`mf_st.py`, first later row with `date >= target`) returns the earliest
observation with date `≥ target`, whenever such an observation exists; the
last conjunct shows the `start_idx + 1` offset used by `mf_st.py` is
immaterial when all skipped rows lie before the target. -/
theorem C8_date_resolution (data : List Obs) (t : ℚ)
    (hp : data.Pairwise (fun a b : Obs => a.1 < b.1)) :
    (∀ o, floorResolve data t = some o →
      o ∈ data ∧ o.1 ≤ t ∧ ∀ q ∈ data, q.1 ≤ t → q.1 ≤ o.1) ∧
    ((∃ q ∈ data, q.1 ≤ t) → ∃ o, floorResolve data t = some o) ∧
    (∀ o, ceilResolveFrom data 0 t = some o →
      o ∈ data ∧ t ≤ o.1 ∧ ∀ q ∈ data, t ≤ q.1 → o.1 ≤ q.1) ∧
    ((∃ q ∈ data, t ≤ q.1) → ∃ o, ceilResolveFrom data 0 t = some o) ∧
    (∀ k : ℕ, (∀ p ∈ data.take k, p.1 < t) →
      ceilResolveFrom data k t = ceilResolveFrom data 0 t) :=
  ⟨fun o ho => ⟨(floorResolve_eq_some ho).1, (floorResolve_eq_some ho).2,
      floorResolve_max hp ho⟩,
    floorResolve_isSome,
    fun o ho => ⟨(ceilResolveFrom_eq_some ho).1, (ceilResolveFrom_eq_some ho).2,
      ceilResolveFrom_zero_min hp ho⟩,
    ceilResolveFrom_zero_isSome,
    fun k hk => ceilResolveFrom_eq_zero data k hk⟩

/-- Witness for C8 on `sResolve` with target 6: floor resolves to
`(5, 20)` (the latest date `≤ 6`), ceiling to `(9, 30)` (the earliest
date `≥ 6`). -/
theorem C8_date_resolution_witness :
    List.Pairwise (fun a b : Obs => a.1 < b.1) sResolve ∧
    floorResolve sResolve 6 = some (5, 20) ∧
    ((5:ℚ), (20:ℚ)) ∈ sResolve ∧ (5:ℚ) ≤ 6 ∧
    (∀ q ∈ sResolve, q.1 ≤ 6 → q.1 ≤ 5) ∧
    ceilResolveFrom sResolve 0 6 = some (9, 30) ∧
    ((9:ℚ), (30:ℚ)) ∈ sResolve ∧ (6:ℚ) ≤ 9 ∧
    (∀ q ∈ sResolve, 6 ≤ q.1 → 9 ≤ q.1) := by
  have hp : List.Pairwise (fun a b : Obs => a.1 < b.1) sResolve := by
    rw [sResolve]; decide
  have hf : floorResolve sResolve 6 = some (5, 20) := by rw [sResolve]; decide
  have hc : ceilResolveFrom sResolve 0 6 = some (9, 30) := by rw [sResolve]; decide
  have h1 := (C8_date_resolution sResolve 6 hp).1 (5, 20) hf
  have h3 := (C8_date_resolution sResolve 6 hp).2.2.1 (9, 30) hc
  exact ⟨hp, hf, h1.1, h1.2.1, h1.2.2, hc, h3.1, h3.2.1, h3.2.2⟩

/-- C3: every window emitted by a rolling analysis
(`fetch_nifty_data.py` and `mf_st.py`) has
`elapsed_years ≥ 0.9 * window_years` and `elapsed_years > 0`; a candidate
below the 90% threshold is discarded (in `fetch_nifty_data.py` by the
explicit `actual_years < window_years * 0.9` break, in `mf_st.py` because
the ceiling end-resolution makes a short window impossible) and never
appears in the windows sequence. -/
theorem C3_ninety_percent_gate (data : List Obs) (wy : ℕ) (stride : ℚ) :
    (∀ w ∈ fetch_rolling_windows data wy stride,
      (wy : ℚ) * 0.9 ≤ w.years ∧ 0 < w.years) ∧
    (∀ w ∈ mf_rolling_windows data wy,
      (wy : ℚ) * 0.9 ≤ w.years ∧ 0 < w.years) := by
  constructor
  · intro w hw
    cases data with
    | nil => simp [fetch_rolling_windows] at hw
    | cons h t =>
      simp only [fetch_rolling_windows] at hw
      obtain ⟨ps, -, pe, -, -, h09, hpos, -⟩ := fetchLoop_mem hw
      exact ⟨h09, hpos⟩
  · intro w hw
    simp only [mf_rolling_windows] at hw
    obtain ⟨s, hs, e, he, hweq, hwin, hs2, he2, hy⟩ := mfLoop_mem hw
    refine ⟨?_, hy⟩
    have hyears : w.years = (pdays (e.1 - s.1) : ℚ) / 365.25 := by rw [hweq]
    rcases Nat.eq_zero_or_pos wy with h0 | h1
    · rw [h0]
      simpa using le_of_lt hy
    · have hw1 : (1:ℚ) ≤ (wy:ℚ) := by exact_mod_cast h1
      have hfl : (e.1 - s.1) - 1 < (pdays (e.1 - s.1) : ℚ) := Int.sub_one_lt_floor _
      have hd : (wy:ℚ) * 365.25 ≤ e.1 - s.1 := by linarith [hwin]
      rw [hyears, le_div_iff₀ (by norm_num : (0:ℚ) < 365.25)]
      nlinarith [hw1, hfl, hd]

/-- Witness for C3: the single window of the `sIncr2` run has
`elapsed_years = 1460/1461 ≥ 0.9` and `> 0`. -/
theorem C3_ninety_percent_gate_witness :
    (⟨0, 365, 100, 200, 1460/1461⟩ : Window) ∈ fetch_rolling_windows sIncr2 1 30 ∧
    ((1:ℕ) : ℚ) * 0.9 ≤ (1460/1461 : ℚ) ∧ (0:ℚ) < 1460/1461 := by
  have hm : (⟨0, 365, 100, 200, 1460/1461⟩ : Window) ∈ fetch_rolling_windows sIncr2 1 30 := by
    rw [eval_fetch_incr]
    exact List.mem_singleton_self _
  have h := (C3_ninety_percent_gate sIncr2 1 30).1 _ hm
  exact ⟨hm, by simpa using h.1, by simpa using h.2⟩

theorem fetch_window_cagr_shape {data : List Obs} {wy : ℕ} {stride : ℚ}
    {w : Window} {c : ℝ}
    (hw : w ∈ fetch_rolling_windows data wy stride)
    (hc : fetchWindowCagr w = some c) :
    ∃ ps ∈ data, ∃ pe ∈ data, ps.1 < pe.1 ∧ w.startNav = ps.2 ∧ w.endNav = pe.2 ∧
      0 < ((ps.2 : ℚ) : ℝ) ∧
      ∃ yr : ℝ, 0 < yr ∧
        c = ((((pe.2 : ℚ) : ℝ) / ((ps.2 : ℚ) : ℝ)) ^ ((1:ℝ)/yr) - 1) * 100 := by
  have hmem : ∃ ps ∈ data, ∃ pe ∈ data,
      w = ⟨ps.1, pe.1, ps.2, pe.2, (pdays (pe.1 - ps.1) : ℚ) / 365.25⟩ ∧
      (wy : ℚ) * 0.9 ≤ w.years ∧ 0 < w.years ∧ 0 < w.startNav := by
    cases data with
    | nil => simp [fetch_rolling_windows] at hw
    | cons h t =>
      simp only [fetch_rolling_windows] at hw
      exact fetchLoop_mem hw
  obtain ⟨ps, hps, pe, hpe, hweq, -, -, -⟩ := hmem
  subst hweq
  simp only [fetchWindowCagr, fetch_calculate_cagr] at hc
  split at hc
  · exact absurd hc (by simp)
  case _ hguard =>
    push_neg at hguard
    obtain ⟨hy, hs⟩ := hguard
    have h2 : (0:ℝ) < (pdays (pe.1 - ps.1) : ℝ) := by
      rcases div_pos_iff.mp hy with ⟨hn, -⟩ | ⟨-, hd⟩
      · exact hn
      · norm_num at hd
    have h3 : 0 < pdays (pe.1 - ps.1) := by exact_mod_cast h2
    have h4 : (1:ℚ) ≤ pe.1 - ps.1 := by
      have := Int.le_floor.mp h3
      exact_mod_cast this
    refine ⟨ps, hps, pe, hpe, by linarith, rfl, rfl, hs,
      (pdays (pe.1 - ps.1) : ℝ) / 365.25, hy, ?_⟩
    exact (Option.some.inj hc).symm

/-- C9: over the `fetch_nifty_data.py` rolling analysis (whose per-window
cagr is its `calculate_cagr`, the formula shared with the excel variant):
for a series with strictly increasing prices every emitted window cagr is
positive, for strictly decreasing (positive) prices every emitted cagr is
negative, and for a constant series every emitted cagr is zero. -/
theorem C9_monotone_sign (data : List Obs) (wy : ℕ) (stride : ℚ) :
    ((∀ p ∈ data, ∀ q ∈ data, p.1 < q.1 → p.2 < q.2) →
      ∀ w ∈ fetch_rolling_windows data wy stride,
        ∀ c, fetchWindowCagr w = some c → 0 < c) ∧
    ((∀ p ∈ data, 0 < p.2) → (∀ p ∈ data, ∀ q ∈ data, p.1 < q.1 → q.2 < p.2) →
      ∀ w ∈ fetch_rolling_windows data wy stride,
        ∀ c, fetchWindowCagr w = some c → c < 0) ∧
    ((∀ p ∈ data, ∀ q ∈ data, p.2 = q.2) →
      ∀ w ∈ fetch_rolling_windows data wy stride,
        ∀ c, fetchWindowCagr w = some c → c = 0) := by
  refine ⟨fun hinc w hw c hc => ?_, fun hpos hdec w hw c hc => ?_,
    fun hcon w hw c hc => ?_⟩
  · obtain ⟨ps, hps, pe, hpe, hdlt, -, -, hs, yr, hyr, hceq⟩ :=
      fetch_window_cagr_shape hw hc
    have hltR : ((ps.2 : ℚ) : ℝ) < ((pe.2 : ℚ) : ℝ) := by
      exact_mod_cast hinc ps hps pe hpe hdlt
    have hratio : 1 < ((pe.2 : ℚ) : ℝ) / ((ps.2 : ℚ) : ℝ) := (one_lt_div hs).mpr hltR
    have hrpow : 1 < (((pe.2 : ℚ) : ℝ) / ((ps.2 : ℚ) : ℝ)) ^ ((1:ℝ)/yr) :=
      (Real.one_lt_rpow_iff_of_pos (lt_trans one_pos hratio)).mpr
        (Or.inl ⟨hratio, by positivity⟩)
    rw [hceq]
    nlinarith [hrpow]
  · obtain ⟨ps, hps, pe, hpe, hdlt, -, -, hs, yr, hyr, hceq⟩ :=
      fetch_window_cagr_shape hw hc
    have hltR : ((pe.2 : ℚ) : ℝ) < ((ps.2 : ℚ) : ℝ) := by
      exact_mod_cast hdec ps hps pe hpe hdlt
    have he0 : (0:ℝ) < ((pe.2 : ℚ) : ℝ) := by exact_mod_cast hpos pe hpe
    have hr0 : (0:ℝ) < ((pe.2 : ℚ) : ℝ) / ((ps.2 : ℚ) : ℝ) := div_pos he0 hs
    have hr1 : ((pe.2 : ℚ) : ℝ) / ((ps.2 : ℚ) : ℝ) < 1 := (div_lt_one hs).mpr hltR
    have hrpow : (((pe.2 : ℚ) : ℝ) / ((ps.2 : ℚ) : ℝ)) ^ ((1:ℝ)/yr) < 1 :=
      Real.rpow_lt_one (le_of_lt hr0) hr1 (by positivity)
    rw [hceq]
    nlinarith [hrpow]
  · obtain ⟨ps, hps, pe, hpe, hdlt, -, -, hs, yr, hyr, hceq⟩ :=
      fetch_window_cagr_shape hw hc
    have heq : ((pe.2 : ℚ) : ℝ) = ((ps.2 : ℚ) : ℝ) := by
      exact_mod_cast (hcon ps hps pe hpe).symm
    rw [hceq, heq, div_self (ne_of_gt hs), Real.one_rpow]
    ring

/-- Witness for C9: on the strictly increasing series `sIncr2` the single
emitted window has cagr `100 * (2^(1461/1460) - 1)`, which is positive. -/
theorem C9_monotone_sign_witness :
    (∀ p ∈ sIncr2, ∀ q ∈ sIncr2, p.1 < q.1 → p.2 < q.2) ∧
    (⟨0, 365, 100, 200, 1460/1461⟩ : Window) ∈ fetch_rolling_windows sIncr2 1 30 ∧
    fetchWindowCagr ⟨0, 365, 100, 200, 1460/1461⟩ =
      some (((2:ℝ) ^ ((1461:ℝ)/1460) - 1) * 100) ∧
    0 < ((2:ℝ) ^ ((1461:ℝ)/1460) - 1) * 100 := by
  have hinc : ∀ p ∈ sIncr2, ∀ q ∈ sIncr2, p.1 < q.1 → p.2 < q.2 := by
    rw [sIncr2]; decide
  have hm : (⟨0, 365, 100, 200, 1460/1461⟩ : Window) ∈ fetch_rolling_windows sIncr2 1 30 := by
    rw [eval_fetch_incr]
    exact List.mem_singleton_self _
  have hc : fetchWindowCagr ⟨0, 365, 100, 200, 1460/1461⟩ =
      some (((2:ℝ) ^ ((1461:ℝ)/1460) - 1) * 100) := by
    have hp : pdays ((365:ℚ) - 0) = 365 := by norm_num [pdays]
    simp only [fetchWindowCagr, fetch_calculate_cagr, hp]
    rw [if_neg (by norm_num)]
    norm_num
  exact ⟨hinc, hm, hc, (C9_monotone_sign sIncr2 1 30).1 hinc _ hm _ hc⟩

/-- C6 amended: in `fetch_nifty_data.py` every emitted window carries a
present cagr (windows whose prices or duration would make the cagr absent
are skipped, not emitted).  In `nse_index_st.py` a window passing the
end-resolution gate is emitted even when its cagr is absent, provided some
other window has a present cagr: on the `s14m` run the report contains
both windows, the zero-start-price window carries a `none` cagr, and only
the present cagr 0 feeds the statistics (so `total_windows = 2` while one
value enters the statistics).  When every emitted window lacks a cagr, as
on `s13z`, the routine returns the "No valid CAGR calculations possible"
error instead of a report. -/
theorem C6_amended (data : List Obs) (wy : ℕ) (stride : ℚ) :
    (∀ w ∈ fetch_rolling_windows data wy stride, (fetchWindowCagr w).isSome) ∧
    (nse_rolling s14m 1 1 =
        some [⟨0, 365, 0, 100, 1460/1461⟩, ⟨30, 395, 100, 100, 1460/1461⟩] ∧
      nseWindowCagr ⟨0, 365, 0, 100, 1460/1461⟩ = none ∧
      nseValidCagrs [⟨0, 365, 0, 100, 1460/1461⟩, ⟨30, 395, 100, 100, 1460/1461⟩] =
        [0] ∧
      nse_rolling s13z 1 21 = none) := by
  constructor
  · intro w hw
    have hmem : ∃ ps ∈ data, ∃ pe ∈ data,
        w = ⟨ps.1, pe.1, ps.2, pe.2, (pdays (pe.1 - ps.1) : ℚ) / 365.25⟩ ∧
        (wy : ℚ) * 0.9 ≤ w.years ∧ 0 < w.years ∧ 0 < w.startNav := by
      cases data with
      | nil => simp [fetch_rolling_windows] at hw
      | cons h t =>
        simp only [fetch_rolling_windows] at hw
        exact fetchLoop_mem hw
    obtain ⟨ps, -, pe, -, hweq, -, hy, hs⟩ := hmem
    have hy2 : 0 < (pdays (pe.1 - ps.1) : ℚ) / 365.25 := by simpa [hweq] using hy
    have hs2 : 0 < ps.2 := by simpa [hweq] using hs
    subst hweq
    simp only [fetchWindowCagr, fetch_calculate_cagr]
    rw [if_neg]
    · simp
    push_neg
    constructor
    · have : (0:ℝ) < ((((pdays (pe.1 - ps.1) : ℚ)) : ℝ)) / ((365.25 : ℚ) : ℝ) := by
        rw [← Rat.cast_div]
        exact_mod_cast hy2
      convert this using 2 <;> norm_num
    · exact_mod_cast hs2
  · have hn : nseWindowCagr ⟨0, 365, 0, 100, 1460/1461⟩ = none :=
      nseWindowCagr_none _ (by norm_num)
    refine ⟨eval_nse_s14m, hn, ?_, eval_nse_s13z⟩
    rw [nseValidCagrs_cons_of_none hn,
      nseValidCagrs_cons_of_some nseWindowCagr_s14m_snd]
    simp [nseValidCagrs]

/-- C6 counterexample: on `sZeroStart` the anchor-0 candidate survives
both the 98% pre-check (`365 ≥ 0.98 * 365.25`) and the 90% post-check
(`365/365.25 ≥ 0.9`), and its cagr would be absent (zero start price), yet
`fetch_nifty_data.py` emits nothing at all — the window is not emitted
with an absent cagr and is not counted in `total_windows`, contradicting
both halves of the claim. -/
theorem C6_counterexample :
    fetch_rolling_windows sZeroStart 1 30 = [] ∧
    0.98 * (((1:ℕ) : ℚ) * 365.25) ≤ (pdays ((365:ℚ) - 0) : ℚ) ∧
    ((1:ℕ) : ℚ) * 0.9 ≤ (pdays ((365:ℚ) - 0) : ℚ) / 365.25 ∧
    fetch_calculate_cagr 0 100 0 365 = none := by
  refine ⟨eval_fetch_zero, by norm_num [pdays], by norm_num [pdays], ?_⟩
  simp only [fetch_calculate_cagr]
  rw [if_pos (Or.inr le_rfl)]

/-- Folding `min` over the dates returns the initial value or some
member date (`hist_data.index.min()` of the fetch routine). -/
theorem foldl_min_mem (init : ℚ) (t : List Obs) :
    t.foldl (fun m p => min m p.1) init = init ∨
      ∃ p ∈ t, t.foldl (fun m p => min m p.1) init = p.1 := by
  induction t generalizing init with
  | nil => exact Or.inl rfl
  | cons a t2 ih =>
    rcases ih (min init a.1) with h | ⟨p, hp, h⟩
    · rcases min_choice init a.1 with hm | hm
      · exact Or.inl (by rw [List.foldl_cons]; exact h.trans hm)
      · exact Or.inr ⟨a, by simp, by rw [List.foldl_cons]; exact h.trans hm⟩
    · exact Or.inr ⟨p, by simp [hp], by rw [List.foldl_cons]; exact h⟩

/-- Folding `max` over the dates returns the initial value or some
member date (`hist_data.index.max()` of the fetch routine). -/
theorem foldl_max_mem (init : ℚ) (t : List Obs) :
    t.foldl (fun m p => max m p.1) init = init ∨
      ∃ p ∈ t, t.foldl (fun m p => max m p.1) init = p.1 := by
  induction t generalizing init with
  | nil => exact Or.inl rfl
  | cons a t2 ih =>
    rcases ih (max init a.1) with h | ⟨p, hp, h⟩
    · rcases max_choice init a.1 with hm | hm
      · exact Or.inl (by rw [List.foldl_cons]; exact h.trans hm)
      · exact Or.inr ⟨a, by simp, by rw [List.foldl_cons]; exact h.trans hm⟩
    · exact Or.inr ⟨p, by simp [hp], by rw [List.foldl_cons]; exact h⟩

/-- C7 amended: both rolling routines return plain values, never raising;
`fetch_nifty_data.py` produces zero windows — which the caller receives as
the error-tagged dict "No rolling windows could be calculated" — whenever
the series spans less than 98% of the window; and `mf_st.py` produces zero
windows — which the caller receives as a success-shaped dict with
`num_windows = 0`, not a tagged failure — whenever the span is below the
full window.  (A span between 98% and 100% of the window still yields a
success report from the fetch variant, per the counterexample.) -/
theorem C7_amended (data : List Obs) (wy : ℕ) (stride : ℚ) :
    ((∀ p ∈ data, ∀ q ∈ data, q.1 - p.1 < 0.98 * ((wy:ℚ) * 365.25)) →
      fetch_rolling_windows data wy stride = []) ∧
    ((∀ p ∈ data, ∀ q ∈ data, q.1 - p.1 < (wy:ℚ) * 365.25) →
      mf_rolling_windows data wy = []) := by
  constructor
  · intro h
    cases data with
    | nil => simp [fetch_rolling_windows]
    | cons a t =>
      simp only [fetch_rolling_windows]
      rw [fetchLoop]
      rw [if_pos]
      have hsmem : ∃ p ∈ a :: t, t.foldl (fun m p => min m p.1) a.1 = p.1 := by
        rcases foldl_min_mem a.1 t with hm | ⟨p, hp, hm⟩
        · exact ⟨a, by simp, hm⟩
        · exact ⟨p, by simp [hp], hm⟩
      have hemem : ∃ p ∈ a :: t, t.foldl (fun m p => max m p.1) a.1 = p.1 := by
        rcases foldl_max_mem a.1 t with hm | ⟨p, hp, hm⟩
        · exact ⟨a, by simp, hm⟩
        · exact ⟨p, by simp [hp], hm⟩
      obtain ⟨p, hp, hps⟩ := hsmem
      obtain ⟨q, hq, hqe⟩ := hemem
      rw [hps, hqe]
      have hle : (pdays (q.1 - p.1) : ℚ) ≤ q.1 - p.1 := Int.floor_le _
      have hlt := h p hp q hq
      linarith
  · intro h
    simp only [mf_rolling_windows]
    rw [mfLoop]
    split
    · rfl
    case _ s heqs =>
      split
      case _ => rfl
      case _ e heqe =>
        exfalso
        have hsd : s ∈ data :=
          (List.perm_insertionSort (fun a b : Obs => a.1 ≤ b.1) data).mem_iff.mp
            (List.get?_mem heqs)
        have hed : e ∈ data :=
          (List.perm_insertionSort (fun a b : Obs => a.1 ≤ b.1) data).mem_iff.mp
            (ceilResolveFrom_eq_some heqe).1
        have hcond := (ceilResolveFrom_eq_some heqe).2
        have := h s hsd e hed
        linarith

/-- Witness for the amended C6 on the `sIncr2` run. -/
theorem C6_amended_witness :
    (⟨0, 365, 100, 200, 1460/1461⟩ : Window) ∈ fetch_rolling_windows sIncr2 1 30 ∧
    (fetchWindowCagr ⟨0, 365, 100, 200, 1460/1461⟩).isSome = true := by
  have hm : (⟨0, 365, 100, 200, 1460/1461⟩ : Window) ∈ fetch_rolling_windows sIncr2 1 30 := by
    rw [eval_fetch_incr]
    exact List.mem_singleton_self _
  exact ⟨hm, (C6_amended sIncr2 1 30).1 _ hm⟩

/-- C7 counterexample: `sShort` spans 362 days, fewer than
`window_years * 365.25 = 365.25` days, yet the fetch analysis returns a
success report with one window instead of the NoWindowsPossible failure. -/
theorem C7_counterexample :
    fetch_rolling_windows sShort 1 30 = [⟨0, 362, 100, 110, 1448/1461⟩] ∧
    (362:ℚ) - 0 < ((1:ℕ) : ℚ) * 365.25 :=
  ⟨eval_fetch_short, by norm_num⟩

/-- Witness for the amended C7 on `sTiny` (a 100-day span). -/
theorem C7_amended_witness :
    (∀ p ∈ sTiny, ∀ q ∈ sTiny, q.1 - p.1 < 0.98 * (((1:ℕ):ℚ) * 365.25)) ∧
    (∀ p ∈ sTiny, ∀ q ∈ sTiny, q.1 - p.1 < ((1:ℕ):ℚ) * 365.25) ∧
    fetch_rolling_windows sTiny 1 30 = [] ∧ mf_rolling_windows sTiny 1 = [] := by
  have h1 : ∀ p ∈ sTiny, ∀ q ∈ sTiny, q.1 - p.1 < 0.98 * (((1:ℕ):ℚ) * 365.25) := by
    rw [sTiny]
    intro p hp q hq
    fin_cases hp <;> fin_cases hq <;> norm_num
  have h2 : ∀ p ∈ sTiny, ∀ q ∈ sTiny, q.1 - p.1 < ((1:ℕ):ℚ) * 365.25 := by
    rw [sTiny]
    intro p hp q hq
    fin_cases hp <;> fin_cases hq <;> norm_num
  exact ⟨h1, h2, (C7_amended sTiny 1 30).1 h1, (C7_amended sTiny 1 30).2 h2⟩

/-- C10 amended: in `mf_st.py` a window is recorded only when an
observation with date `≥ anchor + window_years * 365.25` days exists, that
observation becomes the window end, and (for whole-day dates) the elapsed
years are at least the requested window length.  In `nse_index_st.py` the
threshold is the truncated `int(window_years * 365.25)` days, so the
elapsed years are only guaranteed to reach
`⌊window_years * 365.25⌋ / 365.25`, which is slightly below the requested
length (see the counterexample).  Neither variant clamps the window end to
the last date of the series. -/
theorem C10_amended (data df2 : List Obs) (wy : ℕ) (stride : ℕ) :
    ((∀ p ∈ data, (p.1).den = 1) →
      ∀ w ∈ mf_rolling_windows data wy,
        (wy:ℚ) ≤ w.years ∧
        ∃ e ∈ data, w.endDate = e.1 ∧ w.startDate + (wy:ℚ) * 365.25 ≤ e.1) ∧
    (∀ ws, nse_rolling df2 wy stride = some ws →
      ∀ w ∈ ws, ((⌊(wy:ℚ) * 365.25⌋ : ℤ) : ℚ) / 365.25 ≤ w.years) := by
  constructor
  · intro hint w hw
    simp only [mf_rolling_windows] at hw
    obtain ⟨s, hs, e, he, hweq, hwin, -, -, -⟩ := mfLoop_mem hw
    have hsd : s ∈ data :=
      (List.perm_insertionSort (fun a b : Obs => a.1 ≤ b.1) data).mem_iff.mp hs
    have hed : e ∈ data :=
      (List.perm_insertionSort (fun a b : Obs => a.1 ≤ b.1) data).mem_iff.mp he
    have hsn : ((s.1).num : ℚ) = s.1 := (Rat.den_eq_one_iff _).mp (hint s hsd)
    have hen : ((e.1).num : ℚ) = e.1 := (Rat.den_eq_one_iff _).mp (hint e hed)
    have hdiff : e.1 - s.1 = (((e.1).num - (s.1).num : ℤ) : ℚ) := by
      push_cast
      rw [hsn, hen]
    have hfl : (pdays (e.1 - s.1) : ℚ) = e.1 - s.1 := by
      rw [hdiff, pdays, Int.floor_intCast]
    constructor
    · have hyears : w.years = (pdays (e.1 - s.1) : ℚ) / 365.25 := by rw [hweq]
      rw [hyears, hfl, le_div_iff₀ (by norm_num : (0:ℚ) < 365.25)]
      linarith [hwin]
    · refine ⟨e, hed, by rw [hweq], ?_⟩
      have : w.startDate = s.1 := by rw [hweq]
      rw [this]
      exact hwin
  · intro ws hws w hw
    simp only [nse_rolling] at hws
    split at hws
    · exact absurd hws (by simp)
    · split at hws
      · exact absurd hws (by simp)
      · split at hws
        · exact absurd hws (by simp)
        · rw [← Option.some.inj hws] at hw
          obtain ⟨s, -, e, -, hweq, hwin⟩ := nseLoop_mem hw
          have hyears : w.years = (pdays (e.1 - s.1) : ℚ) / 365.25 := by rw [hweq]
          have hfl : (⌊(wy:ℚ) * 365.25⌋ : ℚ) ≤ (pdays (e.1 - s.1) : ℚ) := by
            have : (⌊(wy:ℚ) * 365.25⌋ : ℤ) ≤ pdays (e.1 - s.1) :=
              Int.le_floor.mpr (by linarith [hwin])
            exact_mod_cast this
          rw [hyears]
          exact (div_le_div_right (by norm_num : (0:ℚ) < 365.25)).mpr hfl

/-- C4 amended: in `fetch_nifty_data.py` the anchors examined by the
rolling loop form an arithmetic progression with step exactly
`stride_days` calendar days — the anchor advances by `stride_days` after
every step, whether or not the step emitted a window.  (In `mf_st.py` and
`nse_index_st.py`, `stride_days` is instead a row stride; see the
counterexample.) -/
theorem C4_amended (data : List Obs) (endDt windowDays wy stride : ℚ)
    (fuel : ℕ) (cur : ℚ) :
    ∃ n : ℕ, fetchAnchors data endDt windowDays wy stride fuel cur =
      (List.range n).map (fun k : ℕ => cur + (k : ℚ) * stride) := by
  induction fuel generalizing cur with
  | zero => exact ⟨0, by simp [fetchAnchors]⟩
  | succ m ih =>
    have hsing : ∀ c0 : ℚ, [c0] = (List.range 1).map (fun k : ℕ => c0 + (k:ℚ) * stride) := by
      intro c0
      rw [show (1:ℕ) = 0 + 1 from rfl, List.range_succ]
      simp
    have hcons : ∀ (c0 : ℚ) (n : ℕ),
        c0 :: (List.range n).map (fun k : ℕ => (c0 + stride) + (k:ℚ) * stride) =
          (List.range (n+1)).map (fun k : ℕ => c0 + (k:ℚ) * stride) := by
      intro c0 n
      rw [List.range_succ_eq_map, List.map_cons, List.map_map]
      refine congrArg₂ _ (by simp) ?_
      refine List.map_congr_left fun k _ => ?_
      simp only [Function.comp_apply]
      push_cast
      ring
    simp only [fetchAnchors]
    split
    · exact ⟨1, hsing cur⟩
    · split
      · split
        case _ ps pe heq1 heq2 =>
          split
          · exact ⟨1, hsing cur⟩
          · split
            · exact ⟨1, hsing cur⟩
            · obtain ⟨n, hn⟩ := ih (cur + stride)
              exact ⟨n + 1, by rw [hn]; exact hcons cur n⟩
        case _ =>
          obtain ⟨n, hn⟩ := ih (cur + stride)
          exact ⟨n + 1, by rw [hn]; exact hcons cur n⟩
      · split
        · exact ⟨1, hsing cur⟩
        · split
          case _ ps pe heq1 heq2 =>
            split
            · exact ⟨1, hsing cur⟩
            · split
              · exact ⟨1, hsing cur⟩
              · obtain ⟨n, hn⟩ := ih (cur + stride)
                exact ⟨n + 1, by rw [hn]; exact hcons cur n⟩
          case _ =>
            obtain ⟨n, hn⟩ := ih (cur + stride)
            exact ⟨n + 1, by rw [hn]; exact hcons cur n⟩

/-- C5 amended: the per-run standard deviation of `fetch_nifty_data.py`
(`(sum((x - avg)**2)/len)**0.5`) and of `nse_index_st.py` (`np.std`)
equal the population standard deviation written out by the spec (divide
by N, then square root).  `mf_st.py` instead uses `pd.Series(...).std()`,
the sample (N-1) standard deviation; see the counterexample. -/
theorem C5_amended (data : List Obs) (wy : ℕ) (stride : ℚ) (ws : List Window) :
    fetch_std (fetchValidCagrs data wy stride) =
      popStdSpec (fetchValidCagrs data wy stride) ∧
    nse_std (nseValidCagrs ws) = popStdSpec (nseValidCagrs ws) := by
  constructor
  · simp only [fetch_std, popStdSpec, listMean]
    rw [show (0.5:ℝ) = 1/2 by norm_num, ← Real.sqrt_eq_rpow]
  · rfl

/-- C5 counterexample: on the concrete `s24` run of `mf_st.py` the two
window cagrs are `0` and `c = 100 * (2^(1461/2924) - 1) > 0`; the reported
standard deviation `pd.Series([0, c]).std() = sqrt(c^2/2)` (sample, N-1)
differs from the population standard deviation `sqrt(c^2/4)` demanded by
the claim. -/
theorem C5_counterexample :
    pandas_std (mfCagrValues s24 2) ≠ popStdSpec (mfCagrValues s24 2) := by
  have hlist : mfCagrValues s24 2 = [0, ((2:ℝ) ^ ((1461:ℝ)/2924) - 1) * 100] := by
    rw [mfCagrValues, eval_mf_s24]
    simp only [List.map_cons, List.map_nil]
    have h0 : mfWindowCagr ⟨0, 731, 100, 100, 2924/1461⟩ = 0 := by
      simp [mfWindowCagr]
    have h1 : mfWindowCagr ⟨21, 752, 50, 100, 2924/1461⟩ =
        ((2:ℝ) ^ ((1461:ℝ)/2924) - 1) * 100 := by
      simp only [mfWindowCagr]
      norm_num
    rw [h0, h1]
  set c : ℝ := ((2:ℝ) ^ ((1461:ℝ)/2924) - 1) * 100 with hcdef
  have hcpos : 0 < c := by
    have h2 : 1 < (2:ℝ) ^ ((1461:ℝ)/2924) :=
      (Real.one_lt_rpow_iff_of_pos (by norm_num)).mpr (Or.inl ⟨by norm_num, by norm_num⟩)
    rw [hcdef]
    nlinarith [h2]
  rw [hlist]
  intro heq
  have h1 : pandas_std [0, c] = Real.sqrt (c^2/2) := by
    rw [pandas_std]
    congr 1
    simp only [listMean, List.map_cons, List.map_nil, List.sum_cons,
      List.sum_nil, List.length_cons, List.length_nil]
    norm_num
    ring
  have h2 : popStdSpec [0, c] = Real.sqrt (c^2/4) := by
    rw [popStdSpec]
    congr 1
    simp only [List.map_cons, List.map_nil, List.sum_cons,
      List.sum_nil, List.length_cons, List.length_nil]
    norm_num
    ring
  rw [h1, h2] at heq
  have h3 := (Real.sqrt_inj (by positivity) (by positivity)).mp heq
  nlinarith [hcpos, h3]

/-- C10 counterexample: with `window_years = 1` the `nse_index_st.py` run
on `s13` emits a window whose elapsed years are `365/365.25 < 1` — the
truncated `int(1 * 365.25) = 365`-day threshold admits a window shorter
than the requested length, contradicting the claimed
`elapsed ≥ window_years`. -/
theorem C10_counterexample :
    nse_rolling s13 1 21 = some [⟨0, 365, 100, 100, 1460/1461⟩] ∧
    (1460/1461 : ℚ) < ((1:ℕ) : ℚ) :=
  ⟨eval_nse_s13, by norm_num⟩

/-- Witness for the amended C10: the first `s24` window of the mutual-fund
run spans `2924/1461 ≥ 2` years, and the `s13` window of the NSE run spans
`1460/1461 ≥ ⌊365.25⌋/365.25` years. -/
theorem C10_amended_witness :
    (∀ p ∈ s24, (p.1).den = 1) ∧
    ((2:ℕ) : ℚ) ≤ (2924/1461 : ℚ) ∧
    nse_rolling s13 1 21 = some [⟨0, 365, 100, 100, 1460/1461⟩] ∧
    ((⌊((1:ℕ):ℚ) * 365.25⌋ : ℤ) : ℚ) / 365.25 ≤ (1460/1461 : ℚ) := by
  have hint : ∀ p ∈ s24, (p.1).den = 1 := by rw [s24]; decide
  have hm : (⟨0, 731, 100, 100, 2924/1461⟩ : Window) ∈ mf_rolling_windows s24 2 := by
    rw [eval_mf_s24]
    simp
  have h1 := ((C10_amended s24 s13 2 21).1 hint _ hm).1
  have h2 := (C10_amended s24 s13 1 21).2 _ eval_nse_s13
    ⟨0, 365, 100, 100, 1460/1461⟩ (List.mem_singleton_self _)
  exact ⟨hint, by simpa using h1, eval_nse_s13, by simpa using h2⟩

/-- C4 counterexample: the NSE run on `s15` with `stride_days = 1`
produces consecutive windows whose anchor dates are 40 calendar days
apart — `stride_days` strides rows, not calendar days, so the anchor does
not advance by `stride_days` calendar days. -/
theorem C4_counterexample :
    nse_rolling s15 1 1 =
      some [⟨0, 400, 100, 100, 1600/1461⟩, ⟨40, 440, 100, 100, 1600/1461⟩,
        ⟨80, 480, 100, 100, 1600/1461⟩, ⟨120, 520, 100, 100, 1600/1461⟩,
        ⟨160, 560, 100, 100, 1600/1461⟩] ∧
    (40:ℚ) - 0 ≠ 1 :=
  ⟨eval_nse_s15, by norm_num⟩
